import Mathlib

set_option maxRecDepth 4000

/-!
Shallow embedding of the subtitle burn-in backend (src/main.py).

Python floats are modelled as rationals, byte strings as lists of naturals,
and a raised exception as the value none of an Option type.
-/

/-- Python builtin int applied to a float: truncation toward zero. -/
def pyInt (q : ℚ) : ℤ := if q < 0 then ⌈q⌉ else ⌊q⌋

/-- Python floor division a // b on floats. -/
def pyFloorDiv (a b : ℚ) : ℚ := ((⌊a / b⌋ : ℤ) : ℚ)

/-- Python modulo a % b on floats: a - b * (a // b). -/
def pyMod (a b : ℚ) : ℚ := a - b * pyFloorDiv a b

/-- Uppercase hexadecimal digit character for a value below 16. -/
def hexDigitChar (n : ℕ) : Char := if n < 10 then Char.ofNat (48 + n) else Char.ofNat (55 + n)

/-- Uppercase hexadecimal digits of n, most significant first (fuel-driven). -/
def natHexAux : ℕ → ℕ → List Char
  | 0, _ => []
  | fuel + 1, n => if n < 16 then [hexDigitChar n] else natHexAux fuel (n / 16) ++ [hexDigitChar (n % 16)]

/-- Uppercase hexadecimal representation of a natural number. -/
def natHexStr (n : ℕ) : String := String.mk (natHexAux (n + 1) n)

/-- Left-pad a string with zero characters up to width w. -/
def zeroPad (w : ℕ) (s : String) : String := String.mk (List.replicate (w - s.length) '0') ++ s

/-- Python format spec 02X on an int: uppercase hex, zero padded to width 2, sign first. -/
def intHex2 (v : ℤ) : String :=
  if v < 0 then "-" ++ zeroPad 1 (natHexStr v.natAbs) else zeroPad 2 (natHexStr v.toNat)

/-- Python format spec 0w (zero pad to width w) on a natural number. -/
def natZfill (w n : ℕ) : String := zeroPad w (Nat.repr n)

/-- Python format spec 0w (zero pad to width w) on an int, sign first. -/
def intZfill (w : ℕ) (v : ℤ) : String :=
  if v < 0 then "-" ++ zeroPad (w - 1) (Nat.repr v.natAbs) else zeroPad w (Nat.repr v.toNat)

/-- ASCII whitespace as stripped by the Python builtin int. -/
def isPySpace (c : Char) : Bool := decide (c.toNat = 32 ∨ (9 ≤ c.toNat ∧ c.toNat ≤ 13))

/-- Hexadecimal digit characters 0-9, a-f, A-F. -/
def isHexDigit (c : Char) : Bool :=
  decide ((48 ≤ c.toNat ∧ c.toNat ≤ 57) ∨ (97 ≤ c.toNat ∧ c.toNat ≤ 102) ∨ (65 ≤ c.toNat ∧ c.toNat ≤ 70))

/-- Value of a hexadecimal digit character. -/
def hexDigitVal (c : Char) : ℕ :=
  if c.toNat ≤ 57 then c.toNat - 48 else if 97 ≤ c.toNat then c.toNat - 87 else c.toNat - 55

/-- Strip leading and trailing whitespace from a character list. -/
def trimSpaces (l : List Char) : List Char :=
  ((l.dropWhile isPySpace).reverse.dropWhile isPySpace).reverse

/-- Value of a nonempty all-hex-digit character list, most significant digit first. -/
def hexVal (l : List Char) : Option ℕ :=
  if l ≠ [] ∧ l.all isHexDigit then some (l.foldl (fun acc c => 16 * acc + hexDigitVal c) 0) else none

/-- Python builtin int(s, 16) on the short slices taken by hex_to_ass: optional
surrounding whitespace and an optional sign around hex digits; anything else
raises ValueError (modelled as none). -/
def int2 (l : List Char) : Option ℤ :=
  match trimSpaces l with
  | [] => none
  | c :: cs =>
    if c = '+' then (hexVal cs).map (fun n => (n : ℤ))
    else if c = '-' then (hexVal cs).map (fun n => -(n : ℤ))
    else (hexVal (c :: cs)).map (fun n => (n : ℤ))

/-- Alpha byte computed inside hex_to_ass (main.py line 195): int of the clamped
alpha fraction times 255. -/
def alphaByte (alpha : ℚ) : ℤ := pyInt (max 0 (min 1 alpha) * 255)

/-- Python str.lstrip with argument the hash character: drop every leading hash. -/
def stripHash (s : String) : String := String.mk (s.data.dropWhile (fun c => c = '#'))

/-- Two-character slice s[i:i+2] of a character list. -/
def slice2 (l : List Char) (i : ℕ) : List Char := (l.drop i).take 2

/-- Body of hex_to_ass after the length check (main.py lines 191-196): parse the
three channel byte pairs and emit the packed value; a parse failure is a raised
ValueError (none). -/
def assColor (hc : String) (alpha : ℚ) : Option String :=
  match int2 (slice2 hc.data 0), int2 (slice2 hc.data 2), int2 (slice2 hc.data 4) with
  | some r, some g, some b =>
      some ("&H" ++ intHex2 (alphaByte alpha) ++ intHex2 b ++ intHex2 g ++ intHex2 r)
  | _, _, _ => none

/-- hex_to_ass (main.py lines 187-196): strip leading hashes, replace the content
by FFFFFF when its length is not 6, then pack alpha, blue, green, red. -/
def hex_to_ass (hexColor : String) (alpha : ℚ) : Option String :=
  assColor (if (stripHash hexColor).length ≠ 6 then "FFFFFF" else stripHash hexColor) alpha

/-- Primary colour directive value (main.py line 198). -/
def primaryColour (color : String) : Option String := hex_to_ass color 0

/-- Background colour directive value (main.py line 199). -/
def backColour (bg_opacity : ℚ) : Option String :=
  hex_to_ass "000000" (1 - max 0 (min 1 bg_opacity))

/-- Alpha byte of the background colour as a function of the opacity form field. -/
def bgAlphaByte (bg_opacity : ℚ) : ℤ := alphaByte (1 - max 0 (min 1 bg_opacity))

/-- Field values of the ts helper (main.py lines 96-101): hours, minutes, seconds,
milliseconds. -/
def tsFields (t : ℚ) : ℤ × ℤ × ℤ × ℤ :=
  (pyInt (pyFloorDiv t 3600), pyInt (pyFloorDiv (pyMod t 3600) 60), pyInt (pyMod t 60),
   pyInt ((t - (pyInt t : ℚ)) * 1000))

/-- Rendering of the four ts fields with the format specs of the source f-string. -/
def tsRender (f : ℤ × ℤ × ℤ × ℤ) : String :=
  intZfill 2 f.1 ++ ":" ++ intZfill 2 f.2.1 ++ ":" ++ intZfill 2 f.2.2.1 ++ "," ++ intZfill 3 f.2.2.2

/-- ts (main.py lines 96-101): format a time in seconds as HH:MM:SS,mmm. -/
def ts (t : ℚ) : String := tsRender (tsFields t)

/-- End adjustment in the _generate_demo_srt loop (main.py lines 105-106): an end
not exceeding its start is forced to start + 1. -/
def fixCueEnd (start e : ℚ) : ℚ := if e ≤ start then start + 1 else e

/-- Segment list of _generate_demo_srt (main.py lines 90-94). -/
def demoSegments (duration : ℚ) : List (ℚ × ℚ × String) :=
  [(0, min 3 duration, "Namaste! Yeh demo transcription hai."),
   (3, min 6 duration, "Aap yahan subtitles edit kar sakte ho."),
   (6, duration, "Jab ready ho, burn-in karke download kar lo.")]

/-- Start and (forced) end of each cue emitted by _generate_demo_srt. -/
def demoCues (duration : ℚ) : List (ℚ × ℚ) :=
  (demoSegments duration).map (fun seg => (seg.1, fixCueEnd seg.1 seg.2.1))

/-- _generate_demo_srt (main.py lines 88-111): three demo cues serialized in SRT
form with 1-based indices. -/
def generate_demo_srt (duration : ℚ) : String :=
  String.intercalate "\n"
    (((demoSegments duration).enum.map (fun p =>
      [Nat.repr (p.1 + 1), ts p.2.1 ++ " --> " ++ ts (fixCueEnd p.2.1 p.2.2.1), p.2.2.2, ""])).flatten)

/-- Behaviour of the external engine during one burn request: whether the
availability probe (ffmpeg -version, main.py lines 58-63) exits cleanly, and the
outcome of the render invocation (main.py lines 207-218) - ok with the bytes it
writes, or error for a nonzero exit or any exception. -/
structure EngineBehavior where
  availProbeOk : Bool
  renderResult : Except String (List ℕ)

/-- Outcome of the burn endpoint orchestration: output file bytes, the
used_ffmpeg flag, and the download filename (main.py lines 233-234). -/
structure RenderResult where
  outputBytes : List ℕ
  usedExternalEngine : Bool
  filename : String

/-- Orchestration of burn_subtitles (main.py lines 203-234): probe, then try the
render with every exception caught, falling back to a byte copy of the input;
the filename depends only on the used_ffmpeg flag. -/
def burn_subtitles (eng : EngineBehavior) (input : List ℕ) : RenderResult :=
  let step : List ℕ × Bool :=
    if eng.availProbeOk then
      match eng.renderResult with
      | Except.ok rendered => (rendered, true)
      | Except.error _ => (input, false)
    else (input, false)
  { outputBytes := step.1, usedExternalEngine := step.2,
    filename := if step.2 then "subtitled.mp4" else "video.mp4" }

/-- Continuation byte test for UTF-8 decoding. -/
def isCont (b : ℕ) : Bool := decide (128 ≤ b ∧ b ≤ 191)

/-- Admissible range of the first continuation byte after a given lead byte
(excludes overlong forms and surrogates, as the Python decoder does). -/
def contRangeOk (lead c : ℕ) : Bool :=
  if lead = 224 then decide (160 ≤ c ∧ c ≤ 191)
  else if lead = 237 then decide (128 ≤ c ∧ c ≤ 159)
  else if lead = 240 then decide (144 ≤ c ∧ c ≤ 191)
  else if lead = 244 then decide (128 ≤ c ∧ c ≤ 143)
  else isCont c

/-- One step of UTF-8 decoding at lead byte b with remaining bytes rest: either
a decoded code point or none for an invalid maximal subpart, together with how
many further bytes beyond b were consumed. -/
def utf8Step (b : ℕ) (rest : List ℕ) : Option ℕ × ℕ :=
  if b ≤ 127 then (some b, 0)
  else if 194 ≤ b ∧ b ≤ 223 then
    match rest with
    | c1 :: _ => if isCont c1 then (some ((b - 192) * 64 + (c1 - 128)), 1) else (none, 0)
    | [] => (none, 0)
  else if 224 ≤ b ∧ b ≤ 239 then
    match rest with
    | c1 :: c2 :: _ =>
      if contRangeOk b c1 then
        if isCont c2 then (some ((b - 224) * 4096 + (c1 - 128) * 64 + (c2 - 128)), 2)
        else (none, 1)
      else (none, 0)
    | [c1] => if contRangeOk b c1 then (none, 1) else (none, 0)
    | [] => (none, 0)
  else if 240 ≤ b ∧ b ≤ 244 then
    match rest with
    | c1 :: c2 :: c3 :: _ =>
      if contRangeOk b c1 then
        if isCont c2 then
          if isCont c3 then
            (some ((b - 240) * 262144 + (c1 - 128) * 4096 + (c2 - 128) * 64 + (c3 - 128)), 3)
          else (none, 2)
        else (none, 1)
      else (none, 0)
    | [c1, c2] => if contRangeOk b c1 then (if isCont c2 then (none, 2) else (none, 1)) else (none, 0)
    | [c1] => if contRangeOk b c1 then (none, 1) else (none, 0)
    | [] => (none, 0)
  else (none, 0)

/-- Decode loop for bytes.decode with errors ignore: invalid subparts are
skipped and produce nothing. The fuel argument starts at the list length and
bounds the recursion; at least one byte is consumed per step. -/
def utf8IgnoreLoop : ℕ → List ℕ → List ℕ
  | 0, _ => []
  | _, [] => []
  | fuel + 1, b :: rest =>
    match utf8Step b rest with
    | (some cp, k) => cp :: utf8IgnoreLoop fuel (rest.drop k)
    | (none, k) => utf8IgnoreLoop fuel (rest.drop k)

/-- bytes.decode("utf-8", errors="ignore") as used by upload_srt (main.py line 142). -/
def utf8DecodeIgnore (l : List ℕ) : List ℕ := utf8IgnoreLoop l.length l

/-- upload_srt endpoint body (main.py lines 138-143): decode the uploaded bytes
with errors ignore and return the text. -/
def upload_srt (fileBytes : List ℕ) : String :=
  String.mk ((utf8DecodeIgnore fileBytes).map Char.ofNat)

/-- Modelled from the spec: decode loop in which an undecodable maximal subpart
is replaced by the Unicode replacement character instead of being dropped. The
source contains no such decoder; the claim words it as replacement. -/
def utf8ReplaceLoop : ℕ → List ℕ → List ℕ
  | 0, _ => []
  | _, [] => []
  | fuel + 1, b :: rest =>
    match utf8Step b rest with
    | (some cp, k) => cp :: utf8ReplaceLoop fuel (rest.drop k)
    | (none, k) => 65533 :: utf8ReplaceLoop fuel (rest.drop k)

/-- Modelled from the spec: replacement-based decoding of uploaded bytes. -/
def utf8DecodeReplace (l : List ℕ) : List ℕ := utf8ReplaceLoop l.length l

/-- Modelled from the spec: the upload endpoint as the claim describes it, with
undecodable bytes replaced rather than dropped. -/
def uploadSrtReplace (fileBytes : List ℕ) : String :=
  String.mk ((utf8DecodeReplace fileBytes).map Char.ofNat)

/-- Python expression x or d for an optional float x: None and 0.0 are falsy
and give d. -/
def pyOrFloatOpt (x : Option ℚ) (d : ℚ) : ℚ :=
  match x with
  | none => d
  | some v => if v = 0 then d else v

/-- Duration used by the transcribe endpoint (main.py line 126): probe result
or the default 9.0. -/
def transcribeDuration (probe : Option ℚ) : ℚ := pyOrFloatOpt probe 9

/-- Modelled from the spec: the timestamp encoder as the specification words it,
with hours, minutes and seconds from integer division and modulo on the whole
seconds and milliseconds the truncated fractional part times 1000. -/
def tsSpec (t : ℚ) : String :=
  natZfill 2 (⌊t⌋₊ / 3600) ++ ":" ++ natZfill 2 (⌊t⌋₊ % 3600 / 60) ++ ":" ++
    natZfill 2 (⌊t⌋₊ % 60) ++ "," ++ natZfill 3 ⌊(t - (⌊t⌋₊ : ℚ)) * 1000⌋₊

/-- Modelled from the spec: decoding an HH:MM:SS,mmm timestamp back to seconds;
the source has no decoder, the spec requires decode after encode to be within
one millisecond. -/
def decodeTsFields (f : ℤ × ℤ × ℤ × ℤ) : ℚ :=
  (f.1 : ℚ) * 3600 + (f.2.1 : ℚ) * 60 + (f.2.2.1 : ℚ) + (f.2.2.2 : ℚ) / 1000

/-! Arithmetic helper lemmas about the Python primitives. -/

lemma pyInt_intCast (z : ℤ) : pyInt ((z : ℤ) : ℚ) = z := by
  unfold pyInt
  split
  · exact Int.ceil_intCast z
  · exact Int.floor_intCast z

lemma pyInt_eq_floor {q : ℚ} (h : 0 ≤ q) : pyInt q = ⌊q⌋ := if_neg (not_lt.mpr h)

lemma floor_eval_int {q : ℚ} {z : ℤ} (h1 : (z : ℚ) ≤ q) (h2 : q < z + 1) : ⌊q⌋ = z :=
  Int.floor_eq_iff.mpr ⟨h1, h2⟩

lemma pyInt_eval {q : ℚ} {z : ℤ} (h0 : 0 ≤ q) (h1 : (z : ℚ) ≤ q) (h2 : q < z + 1) :
    pyInt q = z := by rw [pyInt_eq_floor h0]; exact floor_eval_int h1 h2

lemma intZfill_natCast (w k : ℕ) : intZfill w ((k : ℕ) : ℤ) = natZfill w k := by
  unfold intZfill natZfill
  rw [if_neg (not_lt.mpr (Int.natCast_nonneg k))]
  simp

lemma floorDiv_natCast (t : ℚ) (ht : 0 ≤ t) (k : ℕ) :
    ⌊t / ((k : ℕ) : ℚ)⌋ = ((⌊t⌋₊ / k : ℕ) : ℤ) := by
  rw [← Int.natCast_floor_eq_floor (div_nonneg ht (Nat.cast_nonneg k)), Nat.floor_div_nat]

/-- Characterization of the four ts fields for a nonnegative time. -/
lemma tsFields_spec (t : ℚ) (ht : 0 ≤ t) :
    tsFields t = (((⌊t⌋₊ / 3600 : ℕ) : ℤ), ((⌊t⌋₊ % 3600 / 60 : ℕ) : ℤ), ((⌊t⌋₊ % 60 : ℕ) : ℤ),
      ((⌊(t - (⌊t⌋₊ : ℚ)) * 1000⌋₊ : ℕ) : ℤ)) := by
  have hfl : ((⌊t⌋₊ : ℕ) : ℤ) = ⌊t⌋ := Int.natCast_floor_eq_floor ht
  have hnt : ((⌊t⌋₊ : ℕ) : ℚ) ≤ t := Nat.floor_le ht
  have hc3600 : ((3600 : ℚ)) = ((3600 : ℕ) : ℚ) := by norm_num
  have hc60 : ((60 : ℚ)) = ((60 : ℕ) : ℚ) := by norm_num
  have h1 : ⌊t / (3600 : ℚ)⌋ = ((⌊t⌋₊ / 3600 : ℕ) : ℤ) := by
    rw [hc3600]; exact floorDiv_natCast t ht 3600
  have h2 : ⌊t / (60 : ℚ)⌋ = ((⌊t⌋₊ / 60 : ℕ) : ℤ) := by
    rw [hc60]; exact floorDiv_natCast t ht 60
  have hm60 : pyMod t 60 = t - ((60 * (⌊t⌋₊ / 60) : ℕ) : ℚ) := by
    unfold pyMod pyFloorDiv
    rw [h2]
    generalize ⌊t⌋₊ / 60 = q
    push_cast
    ring
  have hm60n : 0 ≤ pyMod t 60 := by
    rw [hm60]
    have hle0 : 60 * (⌊t⌋₊ / 60) ≤ ⌊t⌋₊ := by omega
    have hle : ((60 * (⌊t⌋₊ / 60) : ℕ) : ℚ) ≤ ((⌊t⌋₊ : ℕ) : ℚ) := Nat.cast_le.mpr hle0
    linarith
  have h3 : pyInt (pyMod t 60) = ((⌊t⌋₊ % 60 : ℕ) : ℤ) := by
    rw [pyInt_eq_floor hm60n, hm60, (Int.cast_natCast (60 * (⌊t⌋₊ / 60))).symm,
      Int.floor_sub_int, ← hfl]
    omega
  have hm3600 : pyMod t 3600 = t - ((3600 * (⌊t⌋₊ / 3600) : ℕ) : ℚ) := by
    unfold pyMod pyFloorDiv
    rw [h1]
    generalize ⌊t⌋₊ / 3600 = q
    push_cast
    ring
  have hm3600n : 0 ≤ pyMod t 3600 := by
    rw [hm3600]
    have hle0 : 3600 * (⌊t⌋₊ / 3600) ≤ ⌊t⌋₊ := by omega
    have hle : ((3600 * (⌊t⌋₊ / 3600) : ℕ) : ℚ) ≤ ((⌊t⌋₊ : ℕ) : ℚ) := Nat.cast_le.mpr hle0
    linarith
  have hm3600fl : ⌊pyMod t 3600⌋ = ((⌊t⌋₊ % 3600 : ℕ) : ℤ) := by
    rw [hm3600, (Int.cast_natCast (3600 * (⌊t⌋₊ / 3600))).symm, Int.floor_sub_int, ← hfl]
    omega
  have hm3600nat : ⌊pyMod t 3600⌋₊ = ⌊t⌋₊ % 3600 := by
    have hcast := Int.natCast_floor_eq_floor hm3600n
    rw [hm3600fl] at hcast
    omega
  have h4 : ⌊pyMod t 3600 / (60 : ℚ)⌋ = ((⌊t⌋₊ % 3600 / 60 : ℕ) : ℤ) := by
    rw [hc60, floorDiv_natCast _ hm3600n 60, hm3600nat]
  have hfr : 0 ≤ (t - ((⌊t⌋₊ : ℕ) : ℚ)) * 1000 := by
    have hd : 0 ≤ t - ((⌊t⌋₊ : ℕ) : ℚ) := by linarith
    linarith
  unfold tsFields pyFloorDiv
  rw [pyInt_intCast, pyInt_intCast, h1, h4, h3]
  rw [pyInt_eq_floor ht, ← hfl, Int.cast_natCast]
  rw [pyInt_eq_floor hfr, ← Int.natCast_floor_eq_floor hfr]

lemma tsRender_natCast (a b c d : ℕ) :
    tsRender (((a : ℕ) : ℤ), ((b : ℕ) : ℤ), ((c : ℕ) : ℤ), ((d : ℕ) : ℤ)) =
      natZfill 2 a ++ ":" ++ natZfill 2 b ++ ":" ++ natZfill 2 c ++ "," ++ natZfill 3 d := by
  unfold tsRender
  simp [intZfill_natCast]

/-- The source timestamp formatter agrees with the one the specification words. -/
lemma ts_eq_tsSpec (t : ℚ) (ht : 0 ≤ t) : ts t = tsSpec t := by
  unfold ts tsSpec
  rw [tsFields_spec t ht, tsRender_natCast]

lemma tsSpec_val_3661 : tsSpec (3661.25 : ℚ) = "01:01:01,250" := by
  unfold tsSpec
  rw [show (⌊(3661.25 : ℚ)⌋₊) = 3661 from by
        rw [Nat.floor_eq_iff (by norm_num)]; norm_num]
  rw [show ⌊((3661.25 : ℚ) - ((3661 : ℕ) : ℚ)) * 1000⌋₊ = 250 from by
        rw [Nat.floor_eq_iff (by norm_num)]; norm_num]
  decide

lemma decodeTsFields_mk (a b c d : ℤ) :
    decodeTsFields (a, b, c, d) = (a : ℚ) * 3600 + (b : ℚ) * 60 + (c : ℚ) + (d : ℚ) / 1000 := rfl

/-- Reading the emitted fields back to seconds loses less than one millisecond. -/
lemma decode_bounds (t : ℚ) (ht : 0 ≤ t) :
    0 ≤ t - decodeTsFields (tsFields t) ∧ t - decodeTsFields (tsFields t) < 1 / 1000 := by
  rw [tsFields_spec t ht, decodeTsFields_mk]
  simp only [Int.cast_natCast]
  have hnt : ((⌊t⌋₊ : ℕ) : ℚ) ≤ t := Nat.floor_le ht
  have hfr : (0 : ℚ) ≤ (t - ((⌊t⌋₊ : ℕ) : ℚ)) * 1000 := by
    have hd : 0 ≤ t - ((⌊t⌋₊ : ℕ) : ℚ) := by linarith
    linarith
  have hms_le : ((⌊(t - ((⌊t⌋₊ : ℕ) : ℚ)) * 1000⌋₊ : ℕ) : ℚ) ≤ (t - ((⌊t⌋₊ : ℕ) : ℚ)) * 1000 :=
    Nat.floor_le hfr
  have hms_lt : (t - ((⌊t⌋₊ : ℕ) : ℚ)) * 1000 < ((⌊(t - ((⌊t⌋₊ : ℕ) : ℚ)) * 1000⌋₊ : ℕ) : ℚ) + 1 :=
    Nat.lt_floor_add_one _
  have hn : (⌊t⌋₊ / 3600) * 3600 + (⌊t⌋₊ % 3600 / 60) * 60 + ⌊t⌋₊ % 60 = ⌊t⌋₊ := by omega
  have hsum : ((⌊t⌋₊ / 3600 : ℕ) : ℚ) * 3600 + ((⌊t⌋₊ % 3600 / 60 : ℕ) : ℚ) * 60 +
      ((⌊t⌋₊ % 60 : ℕ) : ℚ) = ((⌊t⌋₊ : ℕ) : ℚ) := by exact_mod_cast hn
  constructor <;> linarith

/-- C7: for every nonnegative time, the source timestamp encoder ts agrees with
the specification description: hours, minutes, seconds by integer division and
modulo on the whole seconds, milliseconds the truncated fractional part times
1000, with zero padding to widths 2, 2, 2 and 3 in HH:MM:SS,mmm form. -/
theorem C7_ts_matches_spec (t : ℚ) (ht : 0 ≤ t) : ts t = tsSpec t := ts_eq_tsSpec t ht

theorem C7_ts_matches_spec_witness : (0 : ℚ) ≤ 2.5 ∧ ts (2.5 : ℚ) = tsSpec (2.5 : ℚ) :=
  ⟨by norm_num, C7_ts_matches_spec (2.5 : ℚ) (by norm_num)⟩

/-- C8: for every nonnegative time t, decoding the emitted timestamp fields back
to seconds recovers t to within one millisecond of truncation error, and
encoding 3661.25 yields exactly the string 01:01:01,250. -/
theorem C8_ts_roundtrip (t : ℚ) (ht : 0 ≤ t) :
    (0 ≤ t - decodeTsFields (tsFields t) ∧ t - decodeTsFields (tsFields t) < 1 / 1000) ∧
    ts (3661.25 : ℚ) = "01:01:01,250" :=
  ⟨decode_bounds t ht, by rw [ts_eq_tsSpec _ (by norm_num), tsSpec_val_3661]⟩

theorem C8_ts_roundtrip_witness :
    (0 : ℚ) ≤ 3661.25 ∧
    ((0 ≤ (3661.25 : ℚ) - decodeTsFields (tsFields (3661.25 : ℚ)) ∧
      (3661.25 : ℚ) - decodeTsFields (tsFields (3661.25 : ℚ)) < 1 / 1000) ∧
     ts (3661.25 : ℚ) = "01:01:01,250") :=
  ⟨by norm_num, C8_ts_roundtrip (3661.25 : ℚ) (by norm_num)⟩

/-! Character-level lemmas for the colour parser. -/

lemma hexDigit_toNat {c : Char} (h : isHexDigit c = true) :
    (48 ≤ c.toNat ∧ c.toNat ≤ 57) ∨ (97 ≤ c.toNat ∧ c.toNat ≤ 102) ∨
      (65 ≤ c.toNat ∧ c.toNat ≤ 70) := by
  simpa [isHexDigit] using h

lemma hexDigit_not_space {c : Char} (h : isHexDigit c = true) : isPySpace c = false := by
  have h2 := hexDigit_toNat h
  simp only [isPySpace, decide_eq_false_iff_not]
  omega

lemma hexDigit_ne_plus {c : Char} (h : isHexDigit c = true) : ¬(c = '+') := fun he => by
  rw [he] at h; exact absurd h (by decide)

lemma hexDigit_ne_minus {c : Char} (h : isHexDigit c = true) : ¬(c = '-') := fun he => by
  rw [he] at h; exact absurd h (by decide)

lemma hexDigit_ne_hash {c : Char} (h : isHexDigit c = true) : ¬(c = '#') := fun he => by
  rw [he] at h; exact absurd h (by decide)

lemma trimSpaces_pair {c1 c2 : Char} (h1 : isPySpace c1 = false) (h2 : isPySpace c2 = false) :
    trimSpaces [c1, c2] = [c1, c2] := by
  unfold trimSpaces
  simp [List.dropWhile, h1, h2]

lemma hexVal_pair {c1 c2 : Char} (h1 : isHexDigit c1 = true) (h2 : isHexDigit c2 = true) :
    hexVal [c1, c2] = some (16 * hexDigitVal c1 + hexDigitVal c2) := by
  unfold hexVal
  rw [if_pos ⟨by simp, by simp [h1, h2]⟩]
  simp [List.foldl]

lemma int2_pair {c1 c2 : Char} (h1 : isHexDigit c1 = true) (h2 : isHexDigit c2 = true) :
    int2 [c1, c2] = some ((16 * hexDigitVal c1 + hexDigitVal c2 : ℕ) : ℤ) := by
  unfold int2
  rw [trimSpaces_pair (hexDigit_not_space h1) (hexDigit_not_space h2)]
  show (if c1 = '+' then (hexVal [c2]).map (fun n => (n : ℤ))
        else if c1 = '-' then (hexVal [c2]).map (fun n => -(n : ℤ))
        else (hexVal [c1, c2]).map (fun n => (n : ℤ))) =
      some ((16 * hexDigitVal c1 + hexDigitVal c2 : ℕ) : ℤ)
  rw [if_neg (hexDigit_ne_plus h1), if_neg (hexDigit_ne_minus h1), hexVal_pair h1 h2]
  rfl

lemma assColor_hex6 (d1 d2 d3 d4 d5 d6 : Char) (a : ℚ)
    (h1 : isHexDigit d1 = true) (h2 : isHexDigit d2 = true) (h3 : isHexDigit d3 = true)
    (h4 : isHexDigit d4 = true) (h5 : isHexDigit d5 = true) (h6 : isHexDigit d6 = true) :
    assColor (String.mk [d1, d2, d3, d4, d5, d6]) a =
      some ("&H" ++ intHex2 (alphaByte a)
        ++ intHex2 ((16 * hexDigitVal d5 + hexDigitVal d6 : ℕ) : ℤ)
        ++ intHex2 ((16 * hexDigitVal d3 + hexDigitVal d4 : ℕ) : ℤ)
        ++ intHex2 ((16 * hexDigitVal d1 + hexDigitVal d2 : ℕ) : ℤ)) := by
  unfold assColor
  rw [show slice2 (String.mk [d1, d2, d3, d4, d5, d6]).data 0 = [d1, d2] from rfl,
    show slice2 (String.mk [d1, d2, d3, d4, d5, d6]).data 2 = [d3, d4] from rfl,
    show slice2 (String.mk [d1, d2, d3, d4, d5, d6]).data 4 = [d5, d6] from rfl,
    int2_pair h1 h2, int2_pair h3 h4, int2_pair h5 h6]

lemma hexToAss_hash6 (d1 d2 d3 d4 d5 d6 : Char) (a : ℚ) (h1 : isHexDigit d1 = true) :
    hex_to_ass (String.mk ['#', d1, d2, d3, d4, d5, d6]) a =
      assColor (String.mk [d1, d2, d3, d4, d5, d6]) a := by
  have hne : ¬(d1 = '#') := hexDigit_ne_hash h1
  have hstrip : stripHash (String.mk ['#', d1, d2, d3, d4, d5, d6]) =
      String.mk [d1, d2, d3, d4, d5, d6] := by
    unfold stripHash
    simp [List.dropWhile, hne]
  unfold hex_to_ass
  rw [hstrip, if_neg (by simp [String.length])]

/-- C2 counterexample: a six-character colour whose characters are not hex
digits does not fall back to white, it raises (none), unlike the white colour
which encodes successfully. -/
theorem C2_color_fallback_cex :
    hex_to_ass "#ZZZZZZ" 0 = none ∧ hex_to_ass "#FFFFFF" 0 ≠ none := by
  constructor
  · rfl
  · rw [show ("#FFFFFF" : String) = String.mk ['#', 'F', 'F', 'F', 'F', 'F', 'F'] from rfl,
      hexToAss_hash6 'F' 'F' 'F' 'F' 'F' 'F' 0 (by decide),
      assColor_hex6 'F' 'F' 'F' 'F' 'F' 'F' 0 (by decide) (by decide) (by decide) (by decide)
        (by decide) (by decide)]
    exact Option.some_ne_none _

/-- C2 amended: a colour whose content after stripping leading hash characters
does not have length 6 falls back to white, and #ZZZ encodes exactly like
#FFFFFF; but a six-character non-hex colour such as #ZZZZZZ raises instead of
falling back. -/
theorem C2_color_fallback :
    (∀ (c : String) (a : ℚ), (stripHash c).length ≠ 6 → hex_to_ass c a = hex_to_ass "#FFFFFF" a)
  ∧ (∀ a : ℚ, hex_to_ass "#ZZZ" a = hex_to_ass "#FFFFFF" a)
  ∧ (∀ a : ℚ, hex_to_ass "#ZZZZZZ" a = none) := by
  refine ⟨?_, ?_, ?_⟩
  · intro c a h
    unfold hex_to_ass
    rw [if_pos h, if_neg (by decide)]
    rfl
  · intro a; rfl
  · intro a; rfl

theorem C2_color_fallback_witness :
    (stripHash "#ABC").length ≠ 6 ∧ hex_to_ass "#ABC" 0 = hex_to_ass "#FFFFFF" 0 :=
  ⟨by decide, C2_color_fallback.1 "#ABC" 0 (by decide)⟩

/-- C3 counterexample: at alpha fraction one half the source computes the alpha
byte by truncation and gets 127, while rounding as the claim states would give
128. -/
theorem C3_alpha_byte_cex :
    alphaByte (1 / 2) = 127 ∧ round (max 0 (min 1 ((1 : ℚ) / 2)) * 255) = 128 ∧
    alphaByte (1 / 2) ≠ round (max 0 (min 1 ((1 : ℚ) / 2)) * 255) := by
  have harg : max 0 (min 1 ((1 : ℚ) / 2)) * 255 = 255 / 2 := by
    norm_num [min_def, max_def]
  have h1 : alphaByte (1 / 2) = 127 := by
    show pyInt (max 0 (min 1 ((1 : ℚ) / 2)) * 255) = 127
    rw [harg]
    exact pyInt_eval (by norm_num) (by norm_num) (by norm_num)
  have h2 : round (max 0 (min 1 ((1 : ℚ) / 2)) * 255) = 128 := by
    rw [harg, round_eq]
    exact floor_eval_int (by norm_num) (by norm_num)
  exact ⟨h1, h2, by rw [h1, h2]; decide⟩

/-- C3 amended: for every alpha fraction and every colour of six hex digits,
the packed value consists of 2-hex-digit uppercase fields in order AA BB GG RR,
with the alpha byte the clamped fraction times 255 truncated (floor), not
rounded. -/
theorem C3_alpha_truncated (a : ℚ) (d1 d2 d3 d4 d5 d6 : Char)
    (h1 : isHexDigit d1 = true) (h2 : isHexDigit d2 = true) (h3 : isHexDigit d3 = true)
    (h4 : isHexDigit d4 = true) (h5 : isHexDigit d5 = true) (h6 : isHexDigit d6 = true) :
    hex_to_ass (String.mk ['#', d1, d2, d3, d4, d5, d6]) a =
      some ("&H" ++ intHex2 ⌊max 0 (min 1 a) * 255⌋
        ++ intHex2 ((16 * hexDigitVal d5 + hexDigitVal d6 : ℕ) : ℤ)
        ++ intHex2 ((16 * hexDigitVal d3 + hexDigitVal d4 : ℕ) : ℤ)
        ++ intHex2 ((16 * hexDigitVal d1 + hexDigitVal d2 : ℕ) : ℤ)) := by
  rw [hexToAss_hash6 d1 d2 d3 d4 d5 d6 a h1,
    assColor_hex6 d1 d2 d3 d4 d5 d6 a h1 h2 h3 h4 h5 h6,
    show alphaByte a = ⌊max 0 (min 1 a) * 255⌋ from
      pyInt_eq_floor (mul_nonneg (le_max_left 0 (min 1 a)) (by norm_num))]

theorem C3_alpha_truncated_witness :
    isHexDigit 'F' = true ∧
    hex_to_ass (String.mk ['#', '0', '0', 'F', 'F', '0', '0']) 0 =
      some ("&H" ++ intHex2 ⌊max 0 (min 1 (0 : ℚ)) * 255⌋
        ++ intHex2 ((16 * hexDigitVal '0' + hexDigitVal '0' : ℕ) : ℤ)
        ++ intHex2 ((16 * hexDigitVal 'F' + hexDigitVal 'F' : ℕ) : ℤ)
        ++ intHex2 ((16 * hexDigitVal '0' + hexDigitVal '0' : ℕ) : ℤ)) :=
  ⟨by decide, C3_alpha_truncated 0 '0' '0' 'F' 'F' '0' '0' (by decide) (by decide) (by decide)
    (by decide) (by decide) (by decide)⟩

lemma alphaByte_mono {x y : ℚ} (h : x ≤ y) : alphaByte x ≤ alphaByte y := by
  unfold alphaByte
  have hx : (0 : ℚ) ≤ max 0 (min 1 x) * 255 := mul_nonneg (le_max_left 0 (min 1 x)) (by norm_num)
  have hy : (0 : ℚ) ≤ max 0 (min 1 y) * 255 := mul_nonneg (le_max_left 0 (min 1 y)) (by norm_num)
  rw [pyInt_eq_floor hx, pyInt_eq_floor hy]
  exact Int.floor_le_floor
    (mul_le_mul_of_nonneg_right (max_le_max le_rfl (min_le_min le_rfl h)) (by norm_num))

/-- C6 counterexample: two distinct opacities in the unit interval whose encoded
background alpha bytes are equal, refuting strict decrease. -/
theorem C6_bg_alpha_cex :
    ((1 : ℚ) / 1000 < 2 / 1000) ∧ ((0 : ℚ) ≤ 1 / 1000) ∧ ((2 : ℚ) / 1000 ≤ 1) ∧
    bgAlphaByte (2 / 1000) = bgAlphaByte (1 / 1000) := by
  have e1 : bgAlphaByte (1 / 1000) = 254 := by
    show pyInt (max 0 (min 1 (1 - max 0 (min 1 ((1 : ℚ) / 1000)))) * 255) = 254
    rw [show max 0 (min 1 (1 - max 0 (min 1 ((1 : ℚ) / 1000)))) * 255 = 50949 / 200 from by
      norm_num [min_def, max_def]]
    exact pyInt_eval (by norm_num) (by norm_num) (by norm_num)
  have e2 : bgAlphaByte (2 / 1000) = 254 := by
    show pyInt (max 0 (min 1 (1 - max 0 (min 1 ((2 : ℚ) / 1000)))) * 255) = 254
    rw [show max 0 (min 1 (1 - max 0 (min 1 ((2 : ℚ) / 1000)))) * 255 = 25449 / 100 from by
      norm_num [min_def, max_def]]
    exact pyInt_eval (by norm_num) (by norm_num) (by norm_num)
  exact ⟨by norm_num, by norm_num, by norm_num, by rw [e1, e2]⟩

/-- C6 amended: the encoded background alpha byte is weakly decreasing in the
opacity: a higher backgroundOpacity never yields a larger alpha byte, but the
decrease is not strict for every pair. -/
theorem C6_bg_alpha_antitone (o1 o2 : ℚ) (h : o1 ≤ o2) : bgAlphaByte o2 ≤ bgAlphaByte o1 :=
  alphaByte_mono (sub_le_sub_left (max_le_max le_rfl (min_le_min le_rfl h)) 1)

theorem C6_bg_alpha_antitone_witness : (0 : ℚ) ≤ 1 ∧ bgAlphaByte 1 ≤ bgAlphaByte 0 :=
  ⟨by norm_num, C6_bg_alpha_antitone 0 1 (by norm_num)⟩

lemma lt_fixCueEnd (s e : ℚ) : s < fixCueEnd s e := by
  by_cases h : e ≤ s
  · unfold fixCueEnd; rw [if_pos h]; linarith
  · unfold fixCueEnd; rw [if_neg h]; exact not_le.mp h

/-- C4: for every positive duration the demo generator emits exactly three cues
with starts 0, 3, 6 and ends at the boundaries 3 and 6 and the duration, each
clipped by min to the duration; an end not exceeding its start is forced to
start + 1, so every cue end strictly exceeds its start; for durations above 6
the cues exactly partition the interval from 0 to the duration. -/
theorem C4_demo_partition (d : ℚ) (hd : 0 < d) :
    (demoCues d).length = 3
  ∧ demoCues d = [(0, fixCueEnd 0 (min 3 d)), (3, fixCueEnd 3 (min 6 d)), (6, fixCueEnd 6 d)]
  ∧ (∀ p ∈ demoCues d, p.1 < p.2)
  ∧ (∀ s e : ℚ, e ≤ s → fixCueEnd s e = s + 1)
  ∧ (6 < d → demoCues d = [(0, 3), (3, 6), (6, d)]) := by
  refine ⟨rfl, rfl, ?_, ?_, ?_⟩
  · intro p hp
    simp only [demoCues, demoSegments, List.map_cons, List.map_nil, List.mem_cons,
      List.not_mem_nil, or_false] at hp
    rcases hp with h | h | h <;> (rw [h]; exact lt_fixCueEnd _ _)
  · intro s e h
    unfold fixCueEnd; rw [if_pos h]
  · intro h6
    have h3 : min 3 d = 3 := min_eq_left (by linarith)
    have h6m : min 6 d = 6 := min_eq_left (by linarith)
    unfold demoCues demoSegments
    simp only [List.map_cons, List.map_nil]
    rw [h3, h6m,
      show fixCueEnd 0 3 = 3 from by unfold fixCueEnd; rw [if_neg (by norm_num)],
      show fixCueEnd 3 6 = 6 from by unfold fixCueEnd; rw [if_neg (by norm_num)],
      show fixCueEnd 6 d = d from by unfold fixCueEnd; rw [if_neg (not_le.mpr h6)]]

theorem C4_demo_partition_witness :
    (0 : ℚ) < 2 ∧ ∀ p ∈ demoCues 2, p.1 < p.2 :=
  ⟨by norm_num, (C4_demo_partition 2 (by norm_num)).2.2.1⟩

/-- C1: the burn orchestration is a total function of the engine behaviour (no
engine-invocation failure escapes it); a failed availability probe or a failed
render yields the fallback, with the used flag false and the output a
byte-for-byte copy of the input, while a successful render sets the flag. -/
theorem C1_engine_fallback (eng : EngineBehavior) (input : List ℕ) :
    (eng.availProbeOk = false →
      (burn_subtitles eng input).usedExternalEngine = false ∧
      (burn_subtitles eng input).outputBytes = input)
  ∧ (∀ msg, eng.renderResult = Except.error msg →
      (burn_subtitles eng input).usedExternalEngine = false ∧
      (burn_subtitles eng input).outputBytes = input)
  ∧ (∀ bs, eng.availProbeOk = true → eng.renderResult = Except.ok bs →
      (burn_subtitles eng input).usedExternalEngine = true ∧
      (burn_subtitles eng input).outputBytes = bs) := by
  rcases eng with ⟨p, r⟩
  cases p <;> cases r <;> simp [burn_subtitles]

theorem C1_engine_fallback_witness :
    (burn_subtitles ⟨false, Except.error "probe failed"⟩ [1, 2, 3]).usedExternalEngine = false ∧
    (burn_subtitles ⟨false, Except.error "probe failed"⟩ [1, 2, 3]).outputBytes = [1, 2, 3] :=
  (C1_engine_fallback ⟨false, Except.error "probe failed"⟩ [1, 2, 3]).1 rfl

/-- C5 counterexample: with the engine entirely absent the filename is
video.mp4, not the success name subtitled.mp4 the claim asserts, and it equals
the filename of the present-but-failing-render path. -/
theorem C5_filename_cex :
    (burn_subtitles ⟨false, Except.error "no engine"⟩ [9, 9]).filename = "video.mp4" ∧
    (burn_subtitles ⟨false, Except.error "no engine"⟩ [9, 9]).filename ≠ "subtitled.mp4" ∧
    (burn_subtitles ⟨true, Except.error "render failed"⟩ [9, 9]).filename =
      (burn_subtitles ⟨false, Except.error "no engine"⟩ [9, 9]).filename := by
  refine ⟨rfl, by decide, rfl⟩

/-- C5 amended: the two failure paths are indistinguishable - whenever the
external engine is not used the output is the unmodified input under the single
fallback filename video.mp4, and only a successful render yields
subtitled.mp4. -/
theorem C5_fallback_filename (eng : EngineBehavior) (input : List ℕ) :
    ((burn_subtitles eng input).usedExternalEngine = false →
      (burn_subtitles eng input).filename = "video.mp4" ∧
      (burn_subtitles eng input).outputBytes = input)
  ∧ ((burn_subtitles eng input).usedExternalEngine = true →
      (burn_subtitles eng input).filename = "subtitled.mp4") := by
  rcases eng with ⟨p, r⟩
  cases p <;> cases r <;> simp [burn_subtitles]

theorem C5_fallback_filename_witness :
    (burn_subtitles ⟨true, Except.error "render failed"⟩ [7]).usedExternalEngine = false ∧
    ((burn_subtitles ⟨true, Except.error "render failed"⟩ [7]).filename = "video.mp4" ∧
     (burn_subtitles ⟨true, Except.error "render failed"⟩ [7]).outputBytes = [7]) :=
  ⟨by decide, (C5_fallback_filename ⟨true, Except.error "render failed"⟩ [7]).1 (by decide)⟩

lemma utf8IgnoreLoop_invalid_byte (ys : List ℕ) :
    utf8DecodeIgnore (255 :: ys) = utf8DecodeIgnore ys := by
  have hstep : utf8Step 255 ys = (none, 0) := rfl
  unfold utf8DecodeIgnore
  rw [List.length_cons]
  simp [utf8IgnoreLoop, hstep]

lemma utf8IgnoreLoop_ascii {b : ℕ} (hb : b ≤ 127) (ys : List ℕ) :
    utf8DecodeIgnore (b :: ys) = b :: utf8DecodeIgnore ys := by
  have hstep : utf8Step b ys = (some b, 0) := by unfold utf8Step; rw [if_pos hb]
  unfold utf8DecodeIgnore
  rw [List.length_cons]
  simp [utf8IgnoreLoop, hstep]

/-- C9 counterexample: an undecodable byte is dropped, not replaced - the
endpoint returns the empty string for the single byte 255, while the
replacement-based decoding the claim describes returns the replacement
character. -/
theorem C9_decode_cex :
    upload_srt [255] = "" ∧ uploadSrtReplace [255] = "�" ∧
    upload_srt [255] ≠ uploadSrtReplace [255] := by
  refine ⟨rfl, rfl, by decide⟩

/-- C9 amended: the upload endpoint decodes any byte sequence into a string
without failing, with undecodable bytes dropped (ignored) rather than replaced:
an invalid byte contributes nothing and an ASCII byte passes through. -/
theorem C9_decode_lossy (fileBytes : List ℕ) :
    upload_srt (255 :: fileBytes) = upload_srt fileBytes
  ∧ (∀ b ys, b ≤ 127 → utf8DecodeIgnore (b :: ys) = b :: utf8DecodeIgnore ys)
  ∧ upload_srt [65, 255, 66] = "AB" := by
  refine ⟨?_, ?_, rfl⟩
  · unfold upload_srt
    rw [utf8IgnoreLoop_invalid_byte]
  · intro b ys hb
    exact utf8IgnoreLoop_ascii hb ys

theorem C9_decode_lossy_witness :
    (66 ≤ 127) ∧ utf8DecodeIgnore [66, 255] = 66 :: utf8DecodeIgnore [255] :=
  ⟨by decide, (C9_decode_lossy []).2.1 66 [255] (by decide)⟩

/-- C10: a duration probe that succeeds with the value 0.0 is falsy in the
Python or-expression, so the transcribe endpoint substitutes the default 9.0
exactly as on probe failure, and the duration fed to cue generation is never
0. -/
theorem C10_zero_duration :
    transcribeDuration (some 0) = 9 ∧ transcribeDuration none = 9 ∧
    transcribeDuration (some 0) = transcribeDuration none ∧
    (∀ probe : Option ℚ, transcribeDuration probe ≠ 0) := by
  refine ⟨by simp [transcribeDuration, pyOrFloatOpt], rfl, by simp [transcribeDuration, pyOrFloatOpt], ?_⟩
  intro probe
  rcases probe with _ | v
  · norm_num [transcribeDuration, pyOrFloatOpt]
  · by_cases hv : v = 0
    · norm_num [transcribeDuration, pyOrFloatOpt, hv]
    · simp [transcribeDuration, pyOrFloatOpt, hv]
